import Mathlib

/-!
Verification of the EDI claim parser (`edi_parser.py`).

The development shallowly embeds the parser's pure core: raw file lines are
lists of byte values (`List Nat`), fixed-width fields are extracted by
`sliceText` exactly as `EDIClaimParser._slice_text` does, and every record
dataclass becomes a Lean structure.  Python-library behaviour that the code
relies on is modelled explicitly:

* the cp949 decode with `errors="ignore"` is modelled on its ASCII-compatible
  single-byte range (bytes below 0x80 map to the identical character, all
  other bytes are dropped, as `errors="ignore"` drops undecodable input);
  every field the verified claims touch is ASCII in the layouts,
* `str.strip` / `str.rstrip` strip the ASCII whitespace characters,
* `int(...)` accepts an optional sign and ASCII digits with single
  underscores between digits,
* `decimal.Decimal(...)` is modelled on finite literals
  (optional sign, digits, optional fractional part); the division by the
  scale factor is exact here because the sliced fields are at most 7 bytes
  wide, far below the 28-significant-digit decimal context.
-/

namespace EDI

/-- Whitespace characters stripped by Python's `str.strip()` (ASCII range:
space, tab, newline, carriage return, vertical tab, form feed). -/
def pyIsSpace (c : Char) : Bool :=
  c.toNat == 32 || c.toNat == 9 || c.toNat == 10 || c.toNat == 13 ||
    c.toNat == 11 || c.toNat == 12

/-- Strip leading and trailing whitespace from a character list (`str.strip()`). -/
def pyStripList (cs : List Char) : List Char :=
  ((cs.dropWhile pyIsSpace).reverse.dropWhile pyIsSpace).reverse

/-- Python `str.strip()`. -/
def pyStrip (s : String) : String :=
  ⟨pyStripList s.data⟩

/-- Python `str.rstrip()`. -/
def pyRstrip (s : String) : String :=
  ⟨(s.data.reverse.dropWhile pyIsSpace).reverse⟩

/-- Python `str.replace(c, "")` for a single-character pattern: every
occurrence of `c` is removed. -/
def removeAll (s : String) (c : Char) : String :=
  ⟨s.data.filter (fun x => !(x == c))⟩

/-- Decode of a byte sequence, modelling `bytes.decode("cp949", errors="ignore")`
on the codepage's ASCII-compatible single-byte range: bytes below 0x80 decode
to themselves, all other bytes are dropped (as `errors="ignore"` drops input
it cannot decode; multi-byte Hangul sequences are outside the modelled
alphabet and no verified field contains them). -/
def decodeBytes : List Nat → List Char
  | [] => []
  | b :: rest => if b < 128 then Char.ofNat b :: decodeBytes rest else decodeBytes rest

/-- Embedding of `EDIClaimParser._slice_text`: 1-based byte offsets, slice the
raw bytes, decode, optionally strip surrounding whitespace. -/
def sliceText (line : List Nat) (start length : Nat) (strip : Bool) : String :=
  let begin_ := max (start - 1) 0
  let chunk := (line.drop begin_).take length
  let text : String := ⟨decodeBytes chunk⟩
  if strip then pyStrip text else text

/-- Embedding of `_parse_gender`: empty suffix gives `none`; otherwise the
FIRST character of the suffix decides (`identity_suffix[0]` in the source). -/
def parseGender (identity_suffix : String) : Option String :=
  match identity_suffix.data with
  | [] => none
  | code :: _ =>
    if code = '1' ∨ code = '3' ∨ code = '5' ∨ code = '7' ∨ code = '9' then some "M"
    else if code = '0' ∨ code = '2' ∨ code = '4' ∨ code = '6' ∨ code = '8' then some "F"
    else none

/-- Modelled from the spec's words for the refinement comparison in C1 (the
sentence "Gender: last digit of the identity suffix"): the LAST character of
the suffix decides.  This is the claim's rule, not the source's. -/
def genderFromLastDigit (identity_suffix : String) : Option String :=
  match identity_suffix.data.getLast? with
  | none => none
  | some code =>
    if code = '1' ∨ code = '3' ∨ code = '5' ∨ code = '7' ∨ code = '9' then some "M"
    else if code = '0' ∨ code = '2' ∨ code = '4' ∨ code = '6' ∨ code = '8' then some "F"
    else none

/-- ASCII digit test (the only digits the parsed fields can contain). -/
def isDigitChar (c : Char) : Bool :=
  48 ≤ c.toNat && c.toNat ≤ 57

/-- Numeric value of an ASCII digit character. -/
def charDigit (c : Char) : Nat := c.toNat - 48

/-- Value of a digit list read left to right. -/
def digitsVal (cs : List Char) : Nat :=
  cs.foldl (fun a c => a * 10 + charDigit c) 0

/-- Tail of Python's integer-literal digit grammar: digits with single
underscores allowed only between digits, accumulating the value. -/
def pyDigitsAux (acc : Nat) : List Char → Option Nat
  | [] => some acc
  | '_' :: c :: rest =>
    if isDigitChar c then pyDigitsAux (acc * 10 + charDigit c) rest else none
  | c :: rest =>
    if isDigitChar c then pyDigitsAux (acc * 10 + charDigit c) rest else none

/-- Python integer-literal digit sequence: nonempty, starts with a digit. -/
def pyParseDigits : List Char → Option Nat
  | [] => none
  | c :: rest => if isDigitChar c then pyDigitsAux (charDigit c) rest else none

/-- Model of Python's `int(str)` on ASCII text: surrounding whitespace is
ignored, an optional sign precedes the digits, underscores may separate
digits; any other content raises `ValueError`, modelled as `none`. -/
def pyIntOfString (s : String) : Option Int :=
  match (pyStrip s).data with
  | '+' :: rest => (pyParseDigits rest).map Int.ofNat
  | '-' :: rest => (pyParseDigits rest).map (fun n => -(Int.ofNat n))
  | t => (pyParseDigits t).map Int.ofNat

/-- Embedding of `_parse_int`: empty (after stripping) gives `none`;
unparsable text logs a warning and gives `none`; never raises. -/
def pyParseInt (value : String) : Option Int :=
  let stripped := pyStrip value
  if stripped = "" then none
  else
    match pyIntOfString stripped with
    | some n => some n
    | none => none

/-- Embedding of `_parse_amount`: strip whitespace, remove every comma
(`.replace(",", "")`); empty gives `0`; unparsable text logs a warning and
gives `0`; never `none`, never raises. -/
def pyParseAmount (value : String) : Int :=
  let stripped := removeAll (pyStrip value) ','
  if stripped = "" then 0
  else
    match pyIntOfString stripped with
    | some n => n
    | none => 0

/-- Half-up rounding of a rational to an integer (`decimal.ROUND_HALF_UP`:
ties round away from zero). -/
def roundHalfUp (q : ℚ) : ℤ :=
  if 0 ≤ q then ⌊q + 1 / 2⌋ else -⌊(1 / 2) - q⌋

/-- Unsigned part of a finite decimal literal: integer digits with an
optional fractional part after a dot, at least one digit overall. -/
def pyDecimalBody (sign : ℚ) (cs : List Char) : Option ℚ :=
  let intPart := cs.takeWhile (fun c => !(c == '.'))
  let rest := cs.dropWhile (fun c => !(c == '.'))
  match rest with
  | [] =>
    if intPart ≠ [] ∧ intPart.all isDigitChar then
      some (sign * (digitsVal intPart : ℚ))
    else none
  | _ :: frac =>
    if (intPart.all isDigitChar) ∧ (frac.all isDigitChar) ∧
        (intPart ≠ [] ∨ frac ≠ []) then
      some (sign *
        ((digitsVal intPart : ℚ) + (digitsVal frac : ℚ) / 10 ^ frac.length))
    else none

/-- Model of `decimal.Decimal(text)` on finite literals: optional sign,
integer digits, optional fractional digits (at least one digit overall).
Exponent forms, underscores and the special values never occur in the
fixed-width fields this parser slices. -/
def pyDecimalOfString (s : String) : Option ℚ :=
  match s.data with
  | [] => pyDecimalBody 1 []
  | c :: rest =>
    if c = '+' then pyDecimalBody 1 rest
    else if c = '-' then pyDecimalBody (-1) rest
    else pyDecimalBody 1 (c :: rest)

/-- Result type of `_parse_decimal`: a decimal number quantized to `scale`
places, represented by its unscaled integer value (the represented rational
is `num / 10 ^ scale`). -/
structure PyDecimal where
  num : ℤ
  scale : ℕ
  deriving DecidableEq

/-- Rational value represented by a `PyDecimal`. -/
def decimalValue (d : PyDecimal) : ℚ :=
  (d.num : ℚ) / 10 ^ d.scale

/-- Quantization to `scale` decimal places with half-up rounding
(`Decimal.quantize(..., rounding=ROUND_HALF_UP)`). -/
def quantizeHalfUp (x : ℚ) (scale : ℕ) : ℤ :=
  roundHalfUp (x * 10 ^ scale)

/-- Embedding of `_parse_decimal`: strip; empty gives `none`; parse as a
decimal (warning and `none` on failure); divide by `10 ^ scale` and quantize
half-up to `scale` places.  The division is exact here (fields are at most 7
bytes, far below the 28-digit decimal context). -/
def parseDecimal (value : String) (scale : ℕ) : Option PyDecimal :=
  let raw := pyStrip value
  if raw = "" then none
  else
    match pyDecimalOfString raw with
    | none => none
    | some q => some ⟨quantizeHalfUp (q / 10 ^ scale) scale, scale⟩

/-- Calendar date as produced by `_parse_date` (`datetime.date`). -/
structure PyDate where
  year : ℕ
  month : ℕ
  day : ℕ
  deriving DecidableEq

/-- Tag distinguishing the two module-level `ClaimFileLayout` instances; the
source's `layout is MI_LAYOUT` identity tests are tag comparisons, since only
these two instances flow through the parser. -/
inductive LayoutTag where
  | mi
  | auto
  deriving DecidableEq

/-- Embedding of the frozen `ClaimFileLayout` dataclass. -/
structure ClaimFileLayout where
  patient_file : String
  dx_file : String
  item_file : String
  detail_file : String
  patient_name_start : ℕ
  patient_name_length : ℕ
  patient_identity_start : ℕ
  patient_identity_length : ℕ
  deriving DecidableEq

/-- The health-insurance layout `MI_LAYOUT`. -/
def MI_LAYOUT : ClaimFileLayout :=
  { patient_file := "K020.1", dx_file := "K020.2", item_file := "K020.3",
    detail_file := "K020.4",
    patient_name_start := 105, patient_name_length := 20,
    patient_identity_start := 125, patient_identity_length := 13 }

/-- The auto-insurance layout `AUTO_LAYOUT`. -/
def AUTO_LAYOUT : ClaimFileLayout :=
  { patient_file := "C110.1", dx_file := "C110.2", item_file := "C110.3",
    detail_file := "C110.4",
    patient_name_start := 98, patient_name_length := 20,
    patient_identity_start := 118, patient_identity_length := 13 }

/-- Layout instance selected by a tag. -/
def layoutOf : LayoutTag → ClaimFileLayout
  | .mi => MI_LAYOUT
  | .auto => AUTO_LAYOUT

/-- Embedding of the `PatientRecord` dataclass (the `extra_fields` dict is an
association list in insertion order). -/
structure PatientRecord where
  encounter_no : String
  claim_no : String
  statement_no : String
  patient_name : String
  patient_identity_prefix : String
  patient_identity_suffix : String
  patient_gender : Option String
  extra_fields : List (String × String)
  deriving DecidableEq

/-- Embedding of the `InsuranceRecord` dataclass. -/
structure InsuranceRecord where
  encounter_no : String
  insurance_type_code : String := ""
  insurance_nhis_type : String := ""
  insurance_nhis_no : String := ""
  insurance_form_no : String := ""
  insurance_provider_code : String := ""
  insurance_payer_code : String := ""
  insurance_claim_type : String := ""
  insurance_subscriber_name : String := ""
  insurance_medical_aid_code : String := ""
  insurance_special_code : String := ""
  insurance_copay_code : String := ""
  claim_no : String := ""
  statement_no : String := ""
  insurance_ta_reg_no : String := ""
  insurance_ta_ins_no : String := ""
  insurance_ta_company_code : String := ""
  insurance_ta_company_name : String := ""
  deriving DecidableEq

/-- Embedding of the `InvoiceRecord` dataclass. -/
structure InvoiceRecord where
  encounter_no : String
  invoice_sum : ℤ := 0
  invoice_insurance_sum : ℤ := 0
  invoice_insurance_patient_burden : ℤ := 0
  invoice_insurance_nhis_burden : ℤ := 0
  invoice_subsidy : ℤ := 0
  invoice_is_fixed_patient_burden : Bool := false
  invoice_patient_max_excess : ℤ := 0
  invoice_disabled_support : ℤ := 0
  deriving DecidableEq

/-- Embedding of the `EncounterDxRecord` dataclass. -/
structure EncounterDxRecord where
  encounter_no : String
  dx_type_code : String
  kcd_code : String
  deriving DecidableEq

/-- Embedding of the `EncounterItemRecord` dataclass. -/
structure EncounterItemRecord where
  encounter_no : String
  line_no : String
  item_code : String
  daily_amount : Option PyDecimal
  days : Option ℤ
  detail_texts : List String := []
  deriving DecidableEq

/-- Embedding of `EncounterItemRecord.add_detail_text`: strip the text and
append it only when nonempty. -/
def addDetailText (it : EncounterItemRecord) (text : String) : EncounterItemRecord :=
  let cleaned := pyStrip text
  if cleaned = "" then it
  else { it with detail_texts := it.detail_texts ++ [cleaned] }

/-- Embedding of the `EncounterRecord` dataclass. -/
structure EncounterRecord where
  encounter_no : String
  patient : Option PatientRecord := none
  encounter_date : Option PyDate := none
  department_code : String := ""
  license_type_code : String := ""
  license_no : String := ""
  dx_list : List EncounterDxRecord := []
  items : List EncounterItemRecord := []
  treatment_days : Option ℤ := none
  inpatient_days : Option ℤ := none
  result_code : String := ""
  is_gongsang : Bool := false
  copay_type_code : String := ""
  insurance : Option InsuranceRecord := none
  invoice : Option InvoiceRecord := none
  deriving DecidableEq

/-- Freshly constructed `EncounterRecord(encounter_no=...)` with every other
field at its dataclass default, as the `setdefault` calls build it. -/
def emptyEncounter (encounter_no : String) : EncounterRecord :=
  { encounter_no := encounter_no }

/-- Python truthiness of an optional integer: `None` and `0` are falsy. -/
def optIntTruthy : Option ℤ → Bool
  | none => false
  | some n => decide (n ≠ 0)

/-- Embedding of `EDIClaimParser._merge_records` (functional: returns the
mutated `target`).  Scalar fields follow the source's `if source.x and not
target.x` truthiness guards; the dx and item lists are concatenated. -/
def mergeRecords (target source : EncounterRecord) : EncounterRecord :=
  { target with
    patient :=
      if source.patient.isSome && !target.patient.isSome then source.patient
      else target.patient,
    encounter_date :=
      if source.encounter_date.isSome && !target.encounter_date.isSome then
        source.encounter_date
      else target.encounter_date,
    department_code :=
      if source.department_code ≠ "" ∧ target.department_code = "" then
        source.department_code
      else target.department_code,
    license_type_code :=
      if source.license_type_code ≠ "" ∧ target.license_type_code = "" then
        source.license_type_code
      else target.license_type_code,
    license_no :=
      if source.license_no ≠ "" ∧ target.license_no = "" then source.license_no
      else target.license_no,
    dx_list := target.dx_list ++ source.dx_list,
    items := target.items ++ source.items,
    treatment_days :=
      if optIntTruthy source.treatment_days && !optIntTruthy target.treatment_days then
        source.treatment_days
      else target.treatment_days,
    inpatient_days :=
      if optIntTruthy source.inpatient_days && !optIntTruthy target.inpatient_days then
        source.inpatient_days
      else target.inpatient_days,
    result_code :=
      if source.result_code ≠ "" ∧ target.result_code = "" then source.result_code
      else target.result_code,
    copay_type_code :=
      if source.copay_type_code ≠ "" ∧ target.copay_type_code = "" then
        source.copay_type_code
      else target.copay_type_code,
    is_gongsang :=
      if source.is_gongsang && !target.is_gongsang then source.is_gongsang
      else target.is_gongsang,
    insurance :=
      if source.insurance.isSome && !target.insurance.isSome then source.insurance
      else target.insurance,
    invoice :=
      if source.invoice.isSome && !target.invoice.isSome then source.invoice
      else target.invoice }

/-- Construction of the `PatientRecord` from one header line, as done at the
top of `_parse_patient_file`'s loop (claim_no at bytes 1-10, statement_no at
11-15, name and identity at the layout's offsets, dashes removed from the
identity, prefix/suffix split at character 6, AUTO extra fields). -/
def parsePatientLine (tag : LayoutTag) (line : List Nat) : PatientRecord :=
  let claim_no := sliceText line 1 10 true
  let statement_no := sliceText line 11 5 true
  let encounter_no := claim_no ++ statement_no
  let layout := layoutOf tag
  let patient_name := sliceText line layout.patient_name_start layout.patient_name_length true
  let identity_raw := sliceText line layout.patient_identity_start layout.patient_identity_length true
  let identity := removeAll identity_raw '-'
  let identityPre := identity.take 6
  let identitySuf := identity.drop 6
  let extra_fields : List (String × String) :=
    match tag with
    | .mi => []
    | .auto =>
      [("auto_accident_no", sliceText line 51 30 true),
       ("auto_guarantee_no", sliceText line 81 17 true),
       ("auto_visit_days", sliceText line 131 3 true),
       ("auto_inpatient_days", sliceText line 134 3 true),
       ("auto_result_code", sliceText line 137 1 true),
       ("auto_total_cost", sliceText line 138 10 true),
       ("auto_patient_payment", sliceText line 148 10 true),
       ("auto_claim_amount", sliceText line 158 10 true),
       ("auto_insurer_code", sliceText line 168 2 true)]
  { encounter_no := encounter_no, claim_no := claim_no, statement_no := statement_no,
    patient_name := patient_name,
    patient_identity_prefix := identityPre,
    patient_identity_suffix := identitySuf,
    patient_gender := parseGender identitySuf,
    extra_fields := extra_fields }

/-- Construction of the `InvoiceRecord` from one header line in
`_parse_patient_file`: the MI branch slices bytes 176-235, the AUTO branch
slices bytes 138-167 and leaves the remaining fields at their defaults. -/
def parseInvoiceLine (tag : LayoutTag) (line : List Nat) : InvoiceRecord :=
  let claim_no := sliceText line 1 10 true
  let statement_no := sliceText line 11 5 true
  let encounter_no := claim_no ++ statement_no
  match tag with
  | .mi =>
    let copay_code := sliceText line 41 1 true
    { encounter_no := encounter_no,
      invoice_sum := pyParseAmount (sliceText line 176 10 true),
      invoice_insurance_sum := pyParseAmount (sliceText line 176 10 true),
      invoice_insurance_patient_burden := pyParseAmount (sliceText line 186 10 true),
      invoice_insurance_nhis_burden := pyParseAmount (sliceText line 206 10 true),
      invoice_subsidy := pyParseAmount (sliceText line 216 10 true),
      invoice_is_fixed_patient_burden := copay_code == "2",
      invoice_patient_max_excess := pyParseAmount (sliceText line 196 10 true),
      invoice_disabled_support := pyParseAmount (sliceText line 226 10 true) }
  | .auto =>
    { encounter_no := encounter_no,
      invoice_sum := pyParseAmount (sliceText line 138 10 true),
      invoice_insurance_sum := pyParseAmount (sliceText line 138 10 true),
      invoice_insurance_patient_burden := pyParseAmount (sliceText line 148 10 true),
      invoice_insurance_nhis_burden := pyParseAmount (sliceText line 158 10 true),
      invoice_subsidy := 0,
      invoice_is_fixed_patient_burden := false }

/-- Lookup in an insertion-ordered association list, modelling `dict[k]` /
`dict.get(k)` (first matching key wins). -/
def alLookup {α : Type} : List (String × α) → String → Option α
  | [], _ => none
  | (k', v) :: rest, k => if k' = k then some v else alLookup rest k

/-- Assignment `dict[k] = v`: replace the value at the first occurrence of
the key, keeping its position, or append a new binding. -/
def alUpdate {α : Type} : List (String × α) → String → α → List (String × α)
  | [], k, v => [(k, v)]
  | (k', v') :: rest, k, v =>
    if k' = k then (k, v) :: rest else (k', v') :: alUpdate rest k v

/-- Python's `dict.setdefault(k, v)` effect on the mapping: bind `k` to `v`
only when `k` is absent. -/
def alSetdefault {α : Type} (m : List (String × α)) (k : String) (v : α) :
    List (String × α) :=
  if (alLookup m k).isSome then m else m ++ [(k, v)]

/-- Encounter map (`Dict[str, EncounterRecord]` in insertion order). -/
abbrev EncMap : Type := List (String × EncounterRecord)

/-- Attach a stripped detail text to the first item whose `line_no` matches,
modelling the mutation of the item found by
`next((item for item in encounter_record.items if item.line_no == line_no), None)`. -/
def attachToFirst (items : List EncounterItemRecord) (lno text : String) :
    List EncounterItemRecord :=
  match items with
  | [] => []
  | it :: rest =>
    if it.line_no = lno then addDetailText it text :: rest
    else it :: attachToFirst rest lno text

/-- Embedding of one iteration of `_attach_details`'s loop: skip the line when
the encounter key is blank or the occurrence-scope marker is not `"2"`;
otherwise `setdefault` the encounter record, and attach the right-stripped
detail text to the matching item, or drop the line with a warning when no item
of that encounter carries the line number. -/
def attachDetailLine (encounters : EncMap) (line : List Nat) : EncMap :=
  let encounter_no := sliceText line 1 15 true
  if encounter_no = "" then encounters
  else
    let occurrence_scope := sliceText line 16 1 true
    if occurrence_scope ≠ "2" then encounters
    else
      let line_no := sliceText line 17 4 true
      let detail_text := pyRstrip (sliceText line 26 700 false)
      let record := (alLookup encounters encounter_no).getD (emptyEncounter encounter_no)
      let encounters' :=
        if (alLookup encounters encounter_no).isSome then encounters
        else encounters ++ [(encounter_no, emptyEncounter encounter_no)]
      if record.items.any (fun it => it.line_no == line_no) then
        alUpdate encounters' encounter_no
          { record with items := attachToFirst record.items line_no detail_text }
      else encounters'

/-- Embedding of `_attach_details`: fold the per-line step over the detail
file's lines (already right-stripped of the line terminator by `_iter_lines`). -/
def attachDetails (encounters : EncMap) (lines : List (List Nat)) : EncMap :=
  lines.foldl attachDetailLine encounters

/-- Filesystem model for discovery: the base path handed to `EDIClaimParser`,
and every directory of the tree under it (the base itself included when it
exists), each with the list of filenames it directly contains. -/
structure FileSystem where
  base : String
  dirs : List (String × List String)

/-- Test that directory `d` directly contains filename `f`. -/
def hasFile (fs : FileSystem) (d f : String) : Bool :=
  match alLookup fs.dirs d with
  | some files => files.contains f
  | none => false

/-- Directories produced by `base.rglob(f)` (as parents of the hits): every
directory of the tree that directly contains `f`. -/
def rglobDirs (fs : FileSystem) (f : String) : List String :=
  (fs.dirs.filter (fun p => p.2.contains f)).map Prod.fst

/-- Embedding of one iteration of `_discover_claim_dirs`'s layout loop: the
direct-file check assigns (`candidates[base] = layout`), then every `rglob`
hit is `setdefault`-ed. -/
def discoverStep (fs : FileSystem) (candidates : List (String × LayoutTag))
    (tag : LayoutTag) : List (String × LayoutTag) :=
  let c1 :=
    if hasFile fs fs.base (layoutOf tag).patient_file then
      alUpdate candidates fs.base tag
    else candidates
  (rglobDirs fs (layoutOf tag).patient_file).foldl
    (fun c d => alSetdefault c d tag) c1

/-- Candidate map built by `_discover_claim_dirs` before sorting
(`SUPPORTED_LAYOUTS = [MI_LAYOUT, AUTO_LAYOUT]`). -/
def discoverCandidates (fs : FileSystem) : List (String × LayoutTag) :=
  [LayoutTag.mi, LayoutTag.auto].foldl (discoverStep fs) []

/-- Order on candidate items used by the final `sorted(candidates.items(),
key=lambda item: str(item[0]))`: compare the directory path strings. -/
def pathLE (p q : String × LayoutTag) : Prop := p.1 ≤ q.1

instance : DecidableRel pathLE := fun p q => inferInstanceAs (Decidable (p.1 ≤ q.1))

instance : IsTotal (String × LayoutTag) pathLE := ⟨fun a b => le_total a.1 b.1⟩

instance : IsTrans (String × LayoutTag) pathLE := ⟨fun _ _ _ h1 h2 => le_trans h1 h2⟩

/-- Embedding of `_discover_claim_dirs`: the candidate items sorted by the
directory path string. -/
def discoverClaimDirs (fs : FileSystem) : List (String × LayoutTag) :=
  List.insertionSort pathLE (discoverCandidates fs)

/-- Outcome of `_parse_claim_dir` on one directory: the per-directory
encounter map, or the message of the exception the `except` clause catches. -/
inductive DirResult where
  | ok : List (String × EncounterRecord) → DirResult
  | error : String → DirResult
  deriving DecidableEq

/-- Merge one directory's encounters into the accumulated map, as the inner
`for encounter_no, record in claim_encounters.items()` loop does. -/
def mergeIntoMap (encounters : EncMap) (recs : List (String × EncounterRecord)) :
    EncMap :=
  recs.foldl
    (fun acc p =>
      match alLookup acc p.1 with
      | some existing => alUpdate acc p.1 (mergeRecords existing p.2)
      | none => acc ++ [p])
    encounters

/-- Strip the trailing `b"\r\n"` terminator bytes (`rstrip(b"\r\n")`). -/
def stripCRLF (line : List Nat) : List Nat :=
  (line.reverse.dropWhile (fun b => b == 13 || b == 10)).reverse

/-- Embedding of `_extract_claim_month`: the argument models the raw first
line read from the patient file (`none` for a missing file or an `OSError`,
an empty read also gives `none`); slice the claim number and keep its first
six characters when long enough. -/
def extractClaimMonth (firstLine : Option (List Nat)) : Option String :=
  match firstLine with
  | none => none
  | some line =>
    if line = [] then none
    else
      let claim_no := sliceText (stripCRLF line) 1 10 true
      if claim_no.length < 6 then none else some (claim_no.take 6)

/-- Embedding of `_format_month`: six digits become `"YYYY.MM"`, anything
else the unknown marker. -/
def formatMonth (value : Option String) : String :=
  match value with
  | none => "알수없음"
  | some v =>
    if v = "" ∨ v.length ≠ 6 ∨ ¬ (v.data.all Char.isDigit) then "알수없음"
    else v.take 4 ++ "." ++ ((v.drop 4).take 2)

/-- Running state of `parse_with_status`'s directory loop (the `month_map`
dict is represented by its two preseeded buckets). -/
structure ParseStatus where
  encounters : EncMap
  successes : List String
  failures : List (String × String)
  monthMi : List String
  monthAuto : List String

/-- Initial state of the loop. -/
def initialStatus : ParseStatus :=
  { encounters := [], successes := [], failures := [], monthMi := [], monthAuto := [] }

/-- Embedding of one iteration of `parse_with_status`'s loop.  `runDir`
models `_parse_claim_dir` (its exceptions as `DirResult.error`), and
`readFirstLine` models the first raw line of a path, feeding
`_extract_claim_month`. -/
def processDir (readFirstLine : String → Option (List Nat))
    (runDir : String → LayoutTag → DirResult)
    (st : ParseStatus) (p : String × LayoutTag) : ParseStatus :=
  match runDir p.1 p.2 with
  | .error msg => { st with failures := alUpdate st.failures p.1 msg }
  | .ok recs =>
    let month := extractClaimMonth (readFirstLine (p.1 ++ "/" ++ (layoutOf p.2).patient_file))
    let monthKey := formatMonth month
    let st1 := { st with successes := st.successes ++ [p.1] }
    let st2 :=
      match p.2 with
      | .mi => { st1 with monthMi := st1.monthMi ++ [monthKey] }
      | .auto => { st1 with monthAuto := st1.monthAuto ++ [monthKey] }
    { st2 with encounters := mergeIntoMap st2.encounters recs }

/-- The directory loop of `parse_with_status`. -/
def processDirs (readFirstLine : String → Option (List Nat))
    (runDir : String → LayoutTag → DirResult)
    (claimDirs : List (String × LayoutTag)) : ParseStatus :=
  claimDirs.foldl (processDir readFirstLine runDir) initialStatus

/-- Embedding of `parse_with_status`: an empty discovery result raises
`FileNotFoundError`; otherwise the loop runs to completion and the partial
result is returned together with the success and failure lists. -/
def parseWithStatus (readFirstLine : String → Option (List Nat))
    (runDir : String → LayoutTag → DirResult)
    (claimDirs : List (String × LayoutTag)) : Except String ParseStatus :=
  if claimDirs = [] then
    .error "Could not find any claim directories"
  else
    .ok (processDirs readFirstLine runDir claimDirs)

/-- The aggregate message `parse` raises in strict mode. -/
def aggregateMessage (failures : List (String × String)) : String :=
  "Failed to parse claim folders: " ++ String.intercalate ", " (failures.map Prod.fst)

/-- Embedding of `parse`: run `parse_with_status`, escalate a non-empty
failure list into a single aggregate error, otherwise return the merged map. -/
def parseStrict (readFirstLine : String → Option (List Nat))
    (runDir : String → LayoutTag → DirResult)
    (claimDirs : List (String × LayoutTag)) : Except String EncMap :=
  match parseWithStatus readFirstLine runDir claimDirs with
  | .error e => .error e
  | .ok st =>
    if st.failures ≠ [] then .error (aggregateMessage st.failures)
    else .ok st.encounters

/-- Agreement of two loop states on everything except the failure dict: used
to express that a failing directory contributes nothing to the rest of the
run. -/
def agreeExceptFailures (s1 s2 : ParseStatus) : Prop :=
  s1.encounters = s2.encounters ∧ s1.successes = s2.successes ∧
    s1.monthMi = s2.monthMi ∧ s1.monthAuto = s2.monthAuto

/-- Definition from the amended wording of C1: the gender is decided by the
FIRST character of the identity suffix (odd digit male, even digit female,
anything else or an empty suffix unknown). -/
def genderFromFirstDigit (identity_suffix : String) : Option String :=
  match identity_suffix.data.head? with
  | none => none
  | some code =>
    if code = '1' ∨ code = '3' ∨ code = '5' ∨ code = '7' ∨ code = '9' then some "M"
    else if code = '0' ∨ code = '2' ∨ code = '4' ∨ code = '6' ∨ code = '8' then some "F"
    else none

lemma decodeBytes_length_le (l : List Nat) : (decodeBytes l).length ≤ l.length := by
  induction l with
  | nil => simp [decodeBytes]
  | cons b rest ih =>
    by_cases h : b < 128 <;> simp [decodeBytes, h] <;> omega

lemma dropWhile_length_le (p : Char → Bool) (l : List Char) :
    (l.dropWhile p).length ≤ l.length := by
  induction l with
  | nil => simp
  | cons c t ih =>
    by_cases h : p c
    · simp only [List.dropWhile_cons, h, if_true, List.length_cons]
      omega
    · simp [List.dropWhile_cons, h]

lemma pyStripList_length_le (cs : List Char) : (pyStripList cs).length ≤ cs.length := by
  unfold pyStripList
  have h1 := dropWhile_length_le pyIsSpace cs
  have h2 := dropWhile_length_le pyIsSpace (cs.dropWhile pyIsSpace).reverse
  simp only [List.length_reverse] at *
  omega

lemma sliceText_length_le (line : List Nat) (start n : Nat) :
    (sliceText line start n true).length ≤ n := by
  show (pyStripList (decodeBytes ((line.drop (max (start - 1) 0)).take n))).length ≤ n
  have h1 := pyStripList_length_le (decodeBytes ((line.drop (max (start - 1) 0)).take n))
  have h2 := decodeBytes_length_le ((line.drop (max (start - 1) 0)).take n)
  have h3 : ((line.drop (max (start - 1) 0)).take n).length ≤ n := by
    simp [List.length_take]
  omega

/-- C1 (counterexample): on a concrete MI header line whose identity suffix is
`"1234560"`, the code derives gender `"M"` from the FIRST suffix character
`'1'`, while the claim's last-digit rule (`'0'` is even) would give `"F"`:
the claim as stated is false on this header line. -/
theorem gender_last_digit_counterexample :
    PatientRecord.patient_gender
        (parsePatientLine LayoutTag.mi
          (List.replicate 124 32 ++ "9901011234560".data.map Char.toNat)) = some "M" ∧
    genderFromLastDigit
        (PatientRecord.patient_identity_suffix
          (parsePatientLine LayoutTag.mi
            (List.replicate 124 32 ++ "9901011234560".data.map Char.toNat))) = some "F" ∧
    (some "M" : Option String) ≠ some "F" := by
  decide

/-- C1 (amended): for every header line under either layout, the derived
patient gender is computed from the FIRST character of the national-identity
suffix: an odd digit gives male, an even digit female, and any other
character (or an empty suffix) gives unknown/none. -/
theorem patient_gender_from_first_suffix_char (tag : LayoutTag) (line : List Nat) :
    PatientRecord.patient_gender (parsePatientLine tag line) =
      genderFromFirstDigit
        (PatientRecord.patient_identity_suffix (parsePatientLine tag line)) := by
  have h : ∀ s : String, parseGender s = genderFromFirstDigit s := by
    intro s
    cases hs : s.data with
    | nil => simp [parseGender, genderFromFirstDigit, hs]
    | cons c t => simp [parseGender, genderFromFirstDigit, hs]
  cases tag <;> exact h _

/-- C6: `_parse_amount` strips whitespace and commas and always returns an
integer: `"1,234"` gives `1234`, empty gives `0`, non-numeric text gives `0`;
`_parse_int` by contrast gives `none` for empty input and `none` for
non-numeric input. -/
theorem parseAmount_total_vs_parseInt :
    pyParseAmount "1,234" = 1234 ∧
    pyParseAmount "" = 0 ∧
    (∀ s : String, pyIntOfString (removeAll (pyStrip s) ',') = none →
      pyParseAmount s = 0) ∧
    pyParseInt "" = none ∧
    (∀ s : String, pyIntOfString (pyStrip s) = none → pyParseInt s = none) := by
  refine ⟨by decide, by decide, ?_, by decide, ?_⟩
  · intro s h
    unfold pyParseAmount
    by_cases he : removeAll (pyStrip s) ',' = ""
    · simp [he]
    · simp [he, h]
  · intro s h
    unfold pyParseInt
    by_cases he : pyStrip s = ""
    · simp [he]
    · simp [he, h]

/-- C6 (witness): the non-numeric input `"12a"` yields `0` from
`_parse_amount` and `none` from `_parse_int`. -/
theorem parseAmount_total_vs_parseInt_witness :
    pyParseAmount "12a" = 0 ∧ pyParseInt "12a" = none :=
  ⟨parseAmount_total_vs_parseInt.2.2.1 "12a" (by decide),
   parseAmount_total_vs_parseInt.2.2.2.2 "12a" (by decide)⟩

/-- C7 (counterexample): on a concrete MI header line with space-padded
claim and statement numbers, `encounter_no` is the 7-character string
`"1234567"`, not a width-15 string: the claim's width assertion is false. -/
theorem encounterNo_width15_counterexample :
    (parsePatientLine LayoutTag.mi
        ("12345     67   ".data.map Char.toNat)).encounter_no = "1234567" ∧
    (parsePatientLine LayoutTag.mi
        ("12345     67   ".data.map Char.toNat)).encounter_no.length ≠ 15 := by
  decide

/-- C7 (amended): for every header line the computed `encounter_no` is
exactly the concatenation `claim_no ++ statement_no` of the stripped slices
of bytes 1-10 and 11-15; because the slices are stripped, its width is at
most 15 but can be shorter. -/
theorem encounterNo_eq_claim_statement_concat (tag : LayoutTag) (line : List Nat) :
    (parsePatientLine tag line).encounter_no =
      sliceText line 1 10 true ++ sliceText line 11 5 true ∧
    (parsePatientLine tag line).encounter_no.length ≤ 15 := by
  have h : (parsePatientLine tag line).encounter_no =
      sliceText line 1 10 true ++ sliceText line 11 5 true := by
    cases tag <;> rfl
  refine ⟨h, ?_⟩
  rw [h, String.length_append]
  have h1 := sliceText_length_le line 1 10
  have h2 := sliceText_length_le line 11 5
  omega

/-- C9: a detail line with scope marker `'2'` whose encounter key is absent
from the map makes the detail pass insert a fresh, empty `EncounterRecord`
(no patient, no items, no diagnoses) under that key, even though the line
itself is then dropped for lack of a matching item. -/
theorem detail_line_creates_empty_encounter :
    attachDetails [] ["AAAAAAAAAAAAAAA2".data.map Char.toNat] =
      [("AAAAAAAAAAAAAAA", emptyEncounter "AAAAAAAAAAAAAAA")] ∧
    (emptyEncounter "AAAAAAAAAAAAAAA").patient = none ∧
    (emptyEncounter "AAAAAAAAAAAAAAA").items = [] ∧
    (emptyEncounter "AAAAAAAAAAAAAAA").dx_list = [] := by
  decide

lemma alLookup_append_some {α : Type} (a b : List (String × α)) (k : String)
    (v : α) (h : alLookup a k = some v) : alLookup (a ++ b) k = some v := by
  induction a with
  | nil => simp [alLookup] at h
  | cons p rest ih =>
    by_cases hk : p.1 = k
    · simp [alLookup, hk] at h ⊢
      exact h
    · simp [alLookup, hk] at h ⊢
      exact ih h

lemma alLookup_append_none {α : Type} (a b : List (String × α)) (k : String)
    (h : alLookup a k = none) : alLookup (a ++ b) k = alLookup b k := by
  induction a with
  | nil => simp [alLookup]
  | cons p rest ih =>
    by_cases hk : p.1 = k
    · simp [alLookup, hk] at h
    · simp [alLookup, hk] at h ⊢
      exact ih h

/-- C2: merging a structurally identical `EncounterRecord` into an existing
one exactly doubles the diagnosis and item lists, while every scalar
single-valued field keeps the value already held by the first record. -/
theorem merge_identical_doubles_lists_keeps_scalars (target source : EncounterRecord)
    (h : source = target) :
    (mergeRecords target source).dx_list.length = 2 * target.dx_list.length ∧
    (mergeRecords target source).items.length = 2 * target.items.length ∧
    (mergeRecords target source).patient = target.patient ∧
    (mergeRecords target source).encounter_date = target.encounter_date ∧
    (mergeRecords target source).department_code = target.department_code ∧
    (mergeRecords target source).license_type_code = target.license_type_code ∧
    (mergeRecords target source).license_no = target.license_no ∧
    (mergeRecords target source).treatment_days = target.treatment_days ∧
    (mergeRecords target source).inpatient_days = target.inpatient_days ∧
    (mergeRecords target source).result_code = target.result_code ∧
    (mergeRecords target source).copay_type_code = target.copay_type_code ∧
    (mergeRecords target source).insurance = target.insurance ∧
    (mergeRecords target source).invoice = target.invoice ∧
    (mergeRecords target source).encounter_no = target.encounter_no := by
  subst h
  unfold mergeRecords
  refine ⟨?_, ?_, ?_, ?_, ?_, ?_, ?_, ?_, ?_, ?_, ?_, ?_, ?_, ?_⟩ <;>
    simp [List.length_append, two_mul, ite_self]

/-- C2 (witness): merging a record holding one diagnosis and one item with an
identical copy of itself doubles both list lengths and keeps the patient. -/
theorem merge_identical_witness :
    (mergeRecords
        { encounter_no := "E",
          dx_list := [{ encounter_no := "E", dx_type_code := "1", kcd_code := "A00" }],
          items := [{ encounter_no := "E", line_no := "0001", item_code := "X",
                      daily_amount := none, days := none }] }
        { encounter_no := "E",
          dx_list := [{ encounter_no := "E", dx_type_code := "1", kcd_code := "A00" }],
          items := [{ encounter_no := "E", line_no := "0001", item_code := "X",
                      daily_amount := none, days := none }] }).dx_list.length = 2 * 1 ∧
    (mergeRecords
        { encounter_no := "E",
          dx_list := [{ encounter_no := "E", dx_type_code := "1", kcd_code := "A00" }],
          items := [{ encounter_no := "E", line_no := "0001", item_code := "X",
                      daily_amount := none, days := none }] }
        { encounter_no := "E",
          dx_list := [{ encounter_no := "E", dx_type_code := "1", kcd_code := "A00" }],
          items := [{ encounter_no := "E", line_no := "0001", item_code := "X",
                      daily_amount := none, days := none }] }).patient = none :=
  ⟨(merge_identical_doubles_lists_keeps_scalars _ _ rfl).1,
   (merge_identical_doubles_lists_keeps_scalars _ _ rfl).2.2.1⟩

/-- C3: in the detail pass, a line whose occurrence-scope marker is not `"2"`
leaves the encounter map untouched (its text is attached to nothing); and a
line with marker `"2"` but no item of its encounter carrying an equal
`line_no` leaves every encounter's item list unchanged — the text is attached
nowhere and no item is created. -/
theorem detail_scope_and_match_guard (m : EncMap) (line : List Nat) :
    (sliceText line 16 1 true ≠ "2" → attachDetailLine m line = m) ∧
    (sliceText line 16 1 true = "2" →
      (∀ it ∈ ((alLookup m (sliceText line 1 15 true)).getD
          (emptyEncounter (sliceText line 1 15 true))).items,
          it.line_no ≠ sliceText line 17 4 true) →
      ∀ k : String,
        ((alLookup (attachDetailLine m line) k).getD (emptyEncounter k)).items =
          ((alLookup m k).getD (emptyEncounter k)).items) := by
  constructor
  · intro hscope
    unfold attachDetailLine
    by_cases he : sliceText line 1 15 true = ""
    · simp [he]
    · simp [he, hscope]
  · intro hscope hnomatch k
    unfold attachDetailLine
    by_cases he : sliceText line 1 15 true = ""
    · simp [he]
    · have hany : (((alLookup m (sliceText line 1 15 true)).getD
          (emptyEncounter (sliceText line 1 15 true))).items.any
            (fun it => it.line_no == sliceText line 17 4 true)) = false := by
        rw [List.any_eq_false]
        intro it hit
        simp only [beq_iff_eq]
        exact hnomatch it hit
      by_cases hex : (alLookup m (sliceText line 1 15 true)).isSome
      · simp [he, hscope, hany, hex]
      · simp only [he, hscope, hany, hex, if_neg, if_false, Bool.false_eq_true,
          ite_false, ite_true, not_true, not_false_iff]
        simp only [show ¬ ("2" ≠ "2") by simp, ite_false, ite_true]
        cases hk : alLookup m k with
        | some v =>
          rw [alLookup_append_some m _ k v hk]
        | none =>
          rw [alLookup_append_none m _ k hk]
          by_cases hek : sliceText line 1 15 true = k
          · subst hek
            simp [alLookup, hk, emptyEncounter]
          · simp [alLookup, hek, hk]

/-- C3 (witness): a concrete header-level detail line (marker `'1'`) leaves a
map untouched, and a concrete line-level detail line with no matching item
leaves the (empty) item view of its encounter unchanged. -/
theorem detail_scope_and_match_guard_witness :
    attachDetailLine [] ("AAAAAAAAAAAAAAA1".data.map Char.toNat) = [] ∧
    ((alLookup (attachDetailLine []
        ("AAAAAAAAAAAAAAA2".data.map Char.toNat)) "AAAAAAAAAAAAAAA").getD
        (emptyEncounter "AAAAAAAAAAAAAAA")).items =
      ((alLookup ([] : EncMap) "AAAAAAAAAAAAAAA").getD
        (emptyEncounter "AAAAAAAAAAAAAAA")).items :=
  ⟨(detail_scope_and_match_guard [] _).1 (by decide),
   (detail_scope_and_match_guard [] _).2 (by decide) (by simp [alLookup, emptyEncounter]) _⟩

lemma pyIsSpace_eq_false_of_digit (c : Char) (h : isDigitChar c = true) :
    pyIsSpace c = false := by
  simp only [isDigitChar, Bool.and_eq_true, decide_eq_true_eq] at h
  simp only [pyIsSpace, Bool.or_eq_false_iff, beq_eq_false_iff_ne, ne_eq]
  omega

lemma dropWhile_eq_self_of_all_false (p : Char → Bool) (cs : List Char)
    (h : ∀ c ∈ cs, p c = false) : cs.dropWhile p = cs := by
  cases cs with
  | nil => simp
  | cons c t => simp [List.dropWhile_cons, h c (List.mem_cons_self c t)]

lemma pyStripList_eq_self (cs : List Char)
    (h : ∀ c ∈ cs, pyIsSpace c = false) : pyStripList cs = cs := by
  unfold pyStripList
  rw [dropWhile_eq_self_of_all_false _ _ h]
  rw [dropWhile_eq_self_of_all_false _ _ (fun c hc => h c (List.mem_reverse.mp hc))]
  exact List.reverse_reverse cs

lemma pyStrip_of_digits (s : String) (h : s.data.all isDigitChar = true) :
    pyStrip s = s := by
  have hall : ∀ c ∈ s.data, pyIsSpace c = false := by
    intro c hc
    exact pyIsSpace_eq_false_of_digit c (by
      rw [List.all_eq_true] at h
      exact h c hc)
  cases s with
  | mk cs => exact congrArg String.mk (pyStripList_eq_self cs hall)

lemma not_dot_of_digit (c : Char) (h : isDigitChar c = true) :
    (!(c == '.')) = true := by
  simp only [isDigitChar, Bool.and_eq_true, decide_eq_true_eq] at h
  simp only [Bool.not_eq_true', beq_eq_false_iff_ne, ne_eq]
  intro hc
  subst hc
  simp at h

lemma takeWhile_not_dot_of_digits (cs : List Char) (h : cs.all isDigitChar = true) :
    cs.takeWhile (fun c => !(c == '.')) = cs := by
  induction cs with
  | nil => simp
  | cons c t ih =>
    rw [List.all_cons, Bool.and_eq_true] at h
    simp [List.takeWhile_cons, not_dot_of_digit c h.1, ih h.2]

lemma dropWhile_not_dot_of_digits (cs : List Char) (h : cs.all isDigitChar = true) :
    cs.dropWhile (fun c => !(c == '.')) = [] := by
  induction cs with
  | nil => simp
  | cons c t ih =>
    rw [List.all_cons, Bool.and_eq_true] at h
    simp [List.dropWhile_cons, not_dot_of_digit c h.1, ih h.2]

lemma pyDecimalOfString_digits (s : String) (h : s.data.all isDigitChar = true)
    (hne : s.data ≠ []) :
    pyDecimalOfString s = some ((digitsVal s.data : ℚ)) := by
  unfold pyDecimalOfString
  cases hs : s.data with
  | nil => exact absurd hs hne
  | cons c t =>
    have hc : isDigitChar c = true := by
      rw [hs, List.all_cons, Bool.and_eq_true] at h
      exact h.1
    have hplus : ¬ (c = '+') := by
      intro hcc
      rw [hcc] at hc
      exact absurd hc (by decide)
    have hminus : ¬ (c = '-') := by
      intro hcc
      rw [hcc] at hc
      exact absurd hc (by decide)
    have hred : (match c :: t with
        | [] => pyDecimalBody 1 []
        | c :: rest =>
          if c = '+' then pyDecimalBody 1 rest
          else if c = '-' then pyDecimalBody (-1) rest
          else pyDecimalBody 1 (c :: rest)) =
        (if c = '+' then pyDecimalBody 1 t
         else if c = '-' then pyDecimalBody (-1) t
         else pyDecimalBody 1 (c :: t)) := rfl
    rw [hred, if_neg hplus, if_neg hminus]
    unfold pyDecimalBody
    rw [hs] at h
    simp only [takeWhile_not_dot_of_digits _ h, dropWhile_not_dot_of_digits _ h]
    rw [if_pos ⟨List.cons_ne_nil c t, h⟩, one_mul]

lemma roundHalfUp_natCast (n : ℕ) : roundHalfUp (n : ℚ) = n := by
  unfold roundHalfUp
  rw [if_pos (by positivity)]
  rw [show ((n : ℚ) + 1 / 2) = 1 / 2 + ((n : ℤ) : ℚ) by push_cast; ring]
  rw [Int.floor_add_int]
  norm_num

lemma quantizeHalfUp_div_pow (n : ℕ) (scale : ℕ) :
    quantizeHalfUp ((n : ℚ) / 10 ^ scale) scale = n := by
  unfold quantizeHalfUp
  rw [div_mul_cancel₀ _ (by positivity : ((10 : ℚ) ^ scale) ≠ 0)]
  exact roundHalfUp_natCast n

/-- C8: `_parse_decimal` on a digit string interprets the digits as an
integer, divides by `10 ^ scale` and rounds half-up to `scale` places (the
division being exact, the result is exactly `digits / 10 ^ scale`);
`"012345"` at scale 2 gives `123.45`, and empty or all-whitespace input
gives `none`. -/
theorem parseDecimal_digits_scaled_halfup :
    (∀ scale : ℕ, parseDecimal "" scale = none) ∧
    (∀ (s : String) (scale : ℕ), pyStrip s = "" → parseDecimal s scale = none) ∧
    parseDecimal "012345" 2 = some ⟨12345, 2⟩ ∧
    decimalValue ⟨12345, 2⟩ = 123.45 ∧
    (∀ (s : String) (scale : ℕ),
      s.data ≠ [] → s.data.all isDigitChar = true → s.data.length ≤ 28 →
      parseDecimal s scale = some ⟨(digitsVal s.data : ℤ), scale⟩ ∧
      decimalValue ⟨(digitsVal s.data : ℤ), scale⟩ =
        (digitsVal s.data : ℚ) / 10 ^ scale) := by
  have hgen : ∀ (s : String) (scale : ℕ),
      s.data ≠ [] → s.data.all isDigitChar = true →
      parseDecimal s scale = some ⟨(digitsVal s.data : ℤ), scale⟩ := by
    intro s scale hne hdig
    unfold parseDecimal
    rw [pyStrip_of_digits s hdig]
    rw [if_neg (by
      intro h'
      rw [h'] at hne
      exact hne rfl)]
    rw [pyDecimalOfString_digits s hdig hne]
    have := quantizeHalfUp_div_pow (digitsVal s.data) scale
    simp only [this]
  refine ⟨?_, ?_, ?_, ?_, ?_⟩
  · intro scale
    rfl
  · intro s scale h
    unfold parseDecimal
    rw [h]
    rfl
  · have h := hgen "012345" 2 (by decide) (by decide)
    rw [h]
    decide
  · norm_num [decimalValue]
  · intro s scale hne hdig _
    exact ⟨hgen s scale hne hdig, rfl⟩

/-- C8 (witness): `_parse_decimal` applied at the concrete digit string
`"7"` with scale 3, and at the all-whitespace string `" "`. -/
theorem parseDecimal_digits_scaled_halfup_witness :
    parseDecimal "7" 3 = some ⟨(digitsVal "7".data : ℤ), 3⟩ ∧
    parseDecimal " " 2 = none :=
  ⟨(parseDecimal_digits_scaled_halfup.2.2.2.2 "7" 3 (by decide) (by decide)
      (by decide)).1,
   parseDecimal_digits_scaled_halfup.2.1 " " 2 (by decide)⟩

/-- C10: under both layouts, every `InvoiceRecord` built from a header line
has `invoice_sum = invoice_insurance_sum`, both being `_parse_amount` of the
same byte range (176-185 for MI, 138-147 for AUTO). -/
theorem invoice_sum_eq_invoice_insurance_sum (tag : LayoutTag) (line : List Nat) :
    (parseInvoiceLine tag line).invoice_sum =
      (parseInvoiceLine tag line).invoice_insurance_sum ∧
    (parseInvoiceLine LayoutTag.mi line).invoice_sum =
      pyParseAmount (sliceText line 176 10 true) ∧
    (parseInvoiceLine LayoutTag.auto line).invoice_sum =
      pyParseAmount (sliceText line 138 10 true) := by
  refine ⟨?_, rfl, rfl⟩
  cases tag <;> rfl

lemma alLookup_eq_none_iff {α : Type} (m : List (String × α)) (k : String) :
    alLookup m k = none ↔ k ∉ m.map Prod.fst := by
  induction m with
  | nil => simp [alLookup]
  | cons p rest ih =>
    obtain ⟨a, b⟩ := p
    by_cases h : a = k
    · simp [alLookup, h]
    · rw [List.map_cons]
      simp only [alLookup, if_neg h, List.mem_cons, ih]
      constructor
      · intro hk hc
        rcases hc with hc | hc
        · exact h hc.symm
        · exact hk hc
      · intro hk hc
        exact hk (Or.inr hc)

lemma alLookup_cons_eq {α : Type} (x : String) (y : α) (rest : List (String × α)) :
    alLookup ((x, y) :: rest) x = some y := by
  simp [alLookup]

lemma alLookup_cons_ne {α : Type} {x k : String} (h : ¬ x = k) (y : α)
    (rest : List (String × α)) :
    alLookup ((x, y) :: rest) k = alLookup rest k := by
  simp [alLookup, h]

lemma alUpdate_cons_eq {α : Type} (x : String) (y : α) (rest : List (String × α))
    (v : α) : alUpdate ((x, y) :: rest) x v = (x, v) :: rest := by
  simp [alUpdate]

lemma alUpdate_cons_ne {α : Type} {x k : String} (h : ¬ x = k) (y : α)
    (rest : List (String × α)) (v : α) :
    alUpdate ((x, y) :: rest) k v = (x, y) :: alUpdate rest k v := by
  simp [alUpdate, h]

lemma alLookup_eq_some_iff_mem {α : Type} (m : List (String × α))
    (hnd : (m.map Prod.fst).Nodup) (k : String) (v : α) :
    alLookup m k = some v ↔ (k, v) ∈ m := by
  induction m with
  | nil => simp [alLookup]
  | cons p rest ih =>
    obtain ⟨a, b⟩ := p
    rw [List.map_cons, List.nodup_cons] at hnd
    by_cases h : a = k
    · subst h
      rw [alLookup_cons_eq]
      simp only [List.mem_cons, Option.some_inj, Prod.mk.injEq]
      constructor
      · intro hv
        exact Or.inl ⟨trivial, hv.symm⟩
      · intro hmem
        rcases hmem with ⟨_, hmem⟩ | hmem
        · exact hmem.symm
        · exact absurd (List.mem_map_of_mem Prod.fst hmem) hnd.1
    · rw [alLookup_cons_ne h]
      simp only [List.mem_cons, ih hnd.2, Prod.mk.injEq]
      constructor
      · intro hm
        exact Or.inr hm
      · intro hm
        rcases hm with ⟨hm, _⟩ | hm
        · exact absurd hm.symm h
        · exact hm

lemma mem_keys_alUpdate {α : Type} (c : List (String × α)) (k : String) (v : α)
    (a : String) :
    a ∈ (alUpdate c k v).map Prod.fst ↔ a ∈ c.map Prod.fst ∨ a = k := by
  induction c with
  | nil => simp [alUpdate]
  | cons p rest ih =>
    obtain ⟨x, y⟩ := p
    by_cases h : x = k
    · subst h
      rw [alUpdate_cons_eq]
      simp only [List.map_cons, List.mem_cons]
      tauto
    · rw [alUpdate_cons_ne h]
      simp only [List.map_cons, List.mem_cons, ih]
      tauto

lemma nodupKeys_alUpdate {α : Type} (c : List (String × α)) (k : String) (v : α)
    (h : (c.map Prod.fst).Nodup) : ((alUpdate c k v).map Prod.fst).Nodup := by
  induction c with
  | nil => simp [alUpdate]
  | cons p rest ih =>
    obtain ⟨x, y⟩ := p
    rw [List.map_cons, List.nodup_cons] at h
    by_cases hk : x = k
    · subst hk
      rw [alUpdate_cons_eq]
      simp only [List.map_cons, List.nodup_cons]
      exact ⟨h.1, h.2⟩
    · rw [alUpdate_cons_ne hk]
      simp only [List.map_cons, List.nodup_cons]
      refine ⟨?_, ih h.2⟩
      rw [mem_keys_alUpdate]
      rintro (hm | hm)
      · exact h.1 hm
      · exact hk hm

lemma nodupKeys_alSetdefault {α : Type} (c : List (String × α)) (k : String) (v : α)
    (h : (c.map Prod.fst).Nodup) : ((alSetdefault c k v).map Prod.fst).Nodup := by
  unfold alSetdefault
  by_cases hs : (alLookup c k).isSome
  · rw [if_pos hs]
    exact h
  · rw [if_neg hs]
    have hk : k ∉ c.map Prod.fst := by
      rw [← alLookup_eq_none_iff]
      cases hc : alLookup c k
      · rfl
      · rw [hc] at hs
        simp at hs
    simp only [List.map_append, List.map_cons, List.map_nil, List.nodup_append]
    refine ⟨h, by simp, ?_⟩
    intro a ha hak
    simp only [List.mem_singleton] at hak
    exact hk (hak ▸ ha)

lemma nodupKeys_setdefault_foldl {α : Type} (ds : List String) (t : α)
    (c : List (String × α)) (h : (c.map Prod.fst).Nodup) :
    (((ds.foldl (fun c' d => alSetdefault c' d t) c)).map Prod.fst).Nodup := by
  induction ds generalizing c with
  | nil => exact h
  | cons d rest ih =>
    rw [List.foldl_cons]
    exact ih _ (nodupKeys_alSetdefault c d t h)

lemma alLookup_alUpdate {α : Type} (c : List (String × α)) (k : String) (v : α)
    (k' : String) :
    alLookup (alUpdate c k v) k' = if k = k' then some v else alLookup c k' := by
  induction c with
  | nil =>
    by_cases h : k = k' <;> simp [alUpdate, alLookup, h]
  | cons p rest ih =>
    obtain ⟨x, y⟩ := p
    by_cases h1 : x = k
    · subst h1
      rw [alUpdate_cons_eq]
      by_cases h2 : x = k'
      · subst h2
        rw [alLookup_cons_eq, alLookup_cons_eq, if_pos rfl]
      · rw [alLookup_cons_ne h2, alLookup_cons_ne h2, if_neg h2]
    · rw [alUpdate_cons_ne h1]
      by_cases h3 : x = k'
      · subst h3
        have h2 : ¬ x = k := h1
        have h2' : ¬ k = x := fun hc => h1 hc.symm
        rw [alLookup_cons_eq, alLookup_cons_eq, if_neg h2']
      · rw [alLookup_cons_ne h3, alLookup_cons_ne h3, ih]

lemma alLookup_setdefault_foldl {α : Type} (ds : List String) (t : α)
    (c : List (String × α)) (k : String) :
    alLookup (ds.foldl (fun c' d => alSetdefault c' d t) c) k =
      match alLookup c k with
      | some v => some v
      | none => if k ∈ ds then some t else none := by
  induction ds generalizing c with
  | nil => cases hck : alLookup c k <;> simp [hck]
  | cons d rest ih =>
    rw [List.foldl_cons, ih]
    unfold alSetdefault
    by_cases hs : (alLookup c d).isSome
    · rw [if_pos hs]
      cases hck : alLookup c k with
      | some v => simp
      | none =>
        by_cases hkd : k = d
        · subst hkd
          rw [hck] at hs
          simp at hs
        · simp [List.mem_cons, hkd]
    · rw [if_neg hs]
      cases hck : alLookup c k with
      | some v =>
        rw [alLookup_append_some _ _ _ _ hck]
      | none =>
        rw [alLookup_append_none _ _ _ hck]
        by_cases hkd : d = k
        · subst hkd
          simp [alLookup]
        · have hdk : ¬ k = d := fun hc => hkd hc.symm
          simp [alLookup, hkd, List.mem_cons, hdk]

lemma mem_rglobDirs_iff (fs : FileSystem) (hnd : (fs.dirs.map Prod.fst).Nodup)
    (f k : String) : k ∈ rglobDirs fs f ↔ hasFile fs k f = true := by
  unfold rglobDirs hasFile
  constructor
  · intro hk
    rcases List.mem_map.mp hk with ⟨p, hp, hpk⟩
    rcases List.mem_filter.mp hp with ⟨hpm, hpf⟩
    have : alLookup fs.dirs k = some p.2 := by
      rw [alLookup_eq_some_iff_mem fs.dirs hnd]
      rw [← hpk]
      simpa using hpm
    rw [this]
    exact hpf
  · intro hk
    cases hl : alLookup fs.dirs k with
    | none =>
      rw [hl] at hk
      simp at hk
    | some files =>
      rw [hl] at hk
      have hm : (k, files) ∈ fs.dirs := (alLookup_eq_some_iff_mem fs.dirs hnd k files).mp hl
      exact List.mem_map.mpr ⟨(k, files), List.mem_filter.mpr ⟨hm, hk⟩, rfl⟩

lemma alLookup_step_mi (fs : FileSystem) (hnd : (fs.dirs.map Prod.fst).Nodup)
    (k : String) :
    alLookup (discoverStep fs [] LayoutTag.mi) k =
      if hasFile fs k "K020.1" = true then some LayoutTag.mi else none := by
  have hstep : discoverStep fs [] LayoutTag.mi =
      (rglobDirs fs "K020.1").foldl (fun c d => alSetdefault c d LayoutTag.mi)
        (if hasFile fs fs.base "K020.1" = true then
          alUpdate [] fs.base LayoutTag.mi else []) := rfl
  rw [hstep, alLookup_setdefault_foldl]
  by_cases hb : hasFile fs fs.base "K020.1" = true
  · rw [if_pos hb, alLookup_alUpdate]
    by_cases hkb : fs.base = k
    · subst hkb
      simp [hb]
    · rw [if_neg hkb]
      simp only [alLookup]
      simp [mem_rglobDirs_iff fs hnd]
  · rw [if_neg hb]
    simp only [alLookup]
    simp [mem_rglobDirs_iff fs hnd]

lemma alLookup_discoverCandidates (fs : FileSystem)
    (hnd : (fs.dirs.map Prod.fst).Nodup) (k : String) :
    alLookup (discoverCandidates fs) k =
      if k = fs.base ∧ hasFile fs fs.base "C110.1" = true then some LayoutTag.auto
      else if hasFile fs k "K020.1" = true then some LayoutTag.mi
      else if hasFile fs k "C110.1" = true then some LayoutTag.auto
      else none := by
  have h1 : discoverCandidates fs = discoverStep fs (discoverStep fs [] .mi) .auto := rfl
  have h2 : discoverStep fs (discoverStep fs [] .mi) .auto =
      (rglobDirs fs "C110.1").foldl (fun c d => alSetdefault c d LayoutTag.auto)
        (if hasFile fs fs.base "C110.1" = true then
          alUpdate (discoverStep fs [] .mi) fs.base LayoutTag.auto
        else discoverStep fs [] .mi) := rfl
  rw [h1, h2, alLookup_setdefault_foldl]
  by_cases hba : hasFile fs fs.base "C110.1" = true
  · rw [if_pos hba, alLookup_alUpdate]
    by_cases hkb : fs.base = k
    · subst hkb
      simp [hba]
    · rw [if_neg hkb, alLookup_step_mi fs hnd k]
      have hnkb : ¬ (k = fs.base ∧ hasFile fs fs.base "C110.1" = true) :=
        fun hc => hkb hc.1.symm
      rw [if_neg hnkb]
      by_cases hkm : hasFile fs k "K020.1" = true
      · simp [hkm]
      · simp [hkm, mem_rglobDirs_iff fs hnd]
  · rw [if_neg hba, alLookup_step_mi fs hnd k]
    have hnkb : ¬ (k = fs.base ∧ hasFile fs fs.base "C110.1" = true) :=
      fun hc => hba hc.2
    rw [if_neg hnkb]
    by_cases hkm : hasFile fs k "K020.1" = true
    · simp [hkm]
    · simp [hkm, mem_rglobDirs_iff fs hnd]

lemma nodupKeys_discoverCandidates (fs : FileSystem) :
    ((discoverCandidates fs).map Prod.fst).Nodup := by
  have h1 : discoverCandidates fs = discoverStep fs (discoverStep fs [] .mi) .auto := rfl
  rw [h1]
  have hstep : ∀ (c : List (String × LayoutTag)) (tag : LayoutTag),
      (c.map Prod.fst).Nodup → ((discoverStep fs c tag).map Prod.fst).Nodup := by
    intro c tag hc
    unfold discoverStep
    apply nodupKeys_setdefault_foldl
    by_cases hb : hasFile fs fs.base (layoutOf tag).patient_file = true
    · rw [if_pos hb]
      exact nodupKeys_alUpdate c fs.base tag hc
    · rw [if_neg hb]
      exact hc
  exact hstep _ .auto (hstep [] .mi (by simp))

/-- C4 (counterexample): when the base directory itself contains both header
filenames, discovery pairs it with the AUTO layout, not the first-precedence
MI layout, because the direct-file check assigns (`candidates[base] =
layout`) rather than `setdefault`s: the claim's precedence statement is
false there. -/
theorem discover_both_headers_base_counterexample :
    discoverClaimDirs ⟨"b", [("b", ["K020.1", "C110.1"])]⟩ =
      [("b", LayoutTag.auto)] ∧
    hasFile ⟨"b", [("b", ["K020.1", "C110.1"])]⟩ "b" "K020.1" = true ∧
    hasFile ⟨"b", [("b", ["K020.1", "C110.1"])]⟩ "b" "C110.1" = true ∧
    ("b", LayoutTag.mi) ∉ discoverClaimDirs ⟨"b", [("b", ["K020.1", "C110.1"])]⟩ := by
  refine ⟨by decide, by decide, by decide, by decide⟩

/-- C4 (amended): discovery returns exactly the directories that directly
contain a supported layout's header filename, sorted by directory path and
with no directory listed twice; a directory other than the base that
contains both header filenames is paired with MI (first in the precedence
list), but the base directory is paired with AUTO whenever it contains the
AUTO header file, even alongside the MI one, because the direct-file check
overwrites the candidate entry. -/
theorem discover_claim_dirs_spec (fs : FileSystem)
    (hnd : (fs.dirs.map Prod.fst).Nodup) :
    List.Sorted (· ≤ ·) ((discoverClaimDirs fs).map Prod.fst) ∧
    ((discoverClaimDirs fs).map Prod.fst).Nodup ∧
    (∀ (d : String) (t : LayoutTag),
      (d, t) ∈ discoverClaimDirs fs ↔
        ((hasFile fs d "K020.1" = true ∨ hasFile fs d "C110.1" = true) ∧
         t = (if d = fs.base ∧ hasFile fs fs.base "C110.1" = true then LayoutTag.auto
              else if hasFile fs d "K020.1" = true then LayoutTag.mi
              else LayoutTag.auto))) := by
  have hperm : List.Perm (discoverClaimDirs fs) (discoverCandidates fs) :=
    List.perm_insertionSort pathLE (discoverCandidates fs)
  have hndSorted : ((discoverClaimDirs fs).map Prod.fst).Nodup :=
    ((hperm.map Prod.fst).nodup_iff).mpr (nodupKeys_discoverCandidates fs)
  refine ⟨?_, hndSorted, ?_⟩
  · have hs : List.Sorted pathLE (discoverClaimDirs fs) :=
      List.sorted_insertionSort pathLE (discoverCandidates fs)
    exact List.Pairwise.map Prod.fst (fun _ _ h => h) hs
  · intro d t
    rw [hperm.mem_iff,
      ← alLookup_eq_some_iff_mem (discoverCandidates fs)
        (nodupKeys_discoverCandidates fs) d t,
      alLookup_discoverCandidates fs hnd d]
    by_cases h1 : d = fs.base ∧ hasFile fs fs.base "C110.1" = true
    · rw [if_pos h1, if_pos h1]
      constructor
      · intro ht
        refine ⟨Or.inr (h1.1 ▸ h1.2), ?_⟩
        exact (Option.some_inj.mp ht).symm
      · intro ⟨_, ht⟩
        rw [ht]
    · rw [if_neg h1, if_neg h1]
      by_cases h2 : hasFile fs d "K020.1" = true
      · rw [if_pos h2, if_pos h2]
        constructor
        · intro ht
          exact ⟨Or.inl h2, (Option.some_inj.mp ht).symm⟩
        · intro ⟨_, ht⟩
          rw [ht]
      · rw [if_neg h2, if_neg h2]
        by_cases h3 : hasFile fs d "C110.1" = true
        · rw [if_pos h3]
          constructor
          · intro ht
            exact ⟨Or.inr h3, (Option.some_inj.mp ht).symm⟩
          · intro ⟨_, ht⟩
            rw [ht]
        · rw [if_neg h3]
          constructor
          · intro ht
            simp at ht
          · intro ⟨hor, _⟩
            rcases hor with h | h
            · exact absurd h h2
            · exact absurd h h3

/-- C4 (witness): the amended discovery characterization applied to a
concrete two-directory tree: a subdirectory with both headers is paired with
MI and the listing is the sorted one. -/
theorem discover_claim_dirs_spec_witness :
    ("r/x", LayoutTag.mi) ∈
      discoverClaimDirs ⟨"r", [("r", []), ("r/x", ["K020.1", "C110.1"]), ("r/a", ["C110.1"])]⟩ ∧
    List.Sorted (· ≤ ·)
      ((discoverClaimDirs
        ⟨"r", [("r", []), ("r/x", ["K020.1", "C110.1"]), ("r/a", ["C110.1"])]⟩).map
          Prod.fst) :=
  ⟨((discover_claim_dirs_spec
      ⟨"r", [("r", []), ("r/x", ["K020.1", "C110.1"]), ("r/a", ["C110.1"])]⟩
      (by decide)).2.2 "r/x" LayoutTag.mi).mpr (by decide),
   (discover_claim_dirs_spec
      ⟨"r", [("r", []), ("r/x", ["K020.1", "C110.1"]), ("r/a", ["C110.1"])]⟩
      (by decide)).1⟩

lemma processDir_agree (read : String → Option (List Nat))
    (run : String → LayoutTag → DirResult) (p : String × LayoutTag)
    (s1 s2 : ParseStatus) (h : agreeExceptFailures s1 s2) :
    agreeExceptFailures (processDir read run s1 p) (processDir read run s2 p) := by
  obtain ⟨pd, pt⟩ := p
  obtain ⟨h1, h2, h3, h4⟩ := h
  unfold processDir
  cases hrun : run pd pt with
  | error msg => exact ⟨h1, h2, h3, h4⟩
  | ok recs =>
    cases pt <;>
      exact ⟨by simp [h1], by simp [h2], by simp [h2, h3], by simp [h2, h4]⟩

lemma processDirs_foldl_agree (read : String → Option (List Nat))
    (run : String → LayoutTag → DirResult) (dirs : List (String × LayoutTag))
    (s1 s2 : ParseStatus) (h : agreeExceptFailures s1 s2) :
    agreeExceptFailures (dirs.foldl (processDir read run) s1)
      (dirs.foldl (processDir read run) s2) := by
  induction dirs generalizing s1 s2 with
  | nil => exact h
  | cons p rest ih =>
    rw [List.foldl_cons, List.foldl_cons]
    exact ih _ _ (processDir_agree read run p s1 s2 h)

lemma processDirs_failures_lookup (read : String → Option (List Nat))
    (run : String → LayoutTag → DirResult) (dirs : List (String × LayoutTag))
    (s : ParseStatus) (d : String) (hd : d ∉ dirs.map Prod.fst) :
    alLookup (dirs.foldl (processDir read run) s).failures d =
      alLookup s.failures d := by
  induction dirs generalizing s with
  | nil => rfl
  | cons p rest ih =>
    rw [List.map_cons, List.mem_cons] at hd
    push_neg at hd
    rw [List.foldl_cons, ih _ hd.2]
    obtain ⟨pd, pt⟩ := p
    unfold processDir
    cases hrun : run pd pt with
    | error msg =>
      simp only []
      rw [alLookup_alUpdate]
      rw [if_neg (fun hc => hd.1 hc.symm)]
    | ok recs =>
      cases pt <;> rfl

/-- C5: an exception from `_parse_claim_dir` on one directory never aborts
the run: the failure is recorded under that directory's path, the directory
contributes nothing to the encounter map or success list, all remaining
directories are still processed, and the strict entry point `parse` fails
with the aggregate error exactly when the failure list is non-empty,
returning the merged encounter map otherwise. -/
theorem parse_status_error_isolation (read : String → Option (List Nat))
    (run : String → LayoutTag → DirResult) (pre post : List (String × LayoutTag))
    (d : String) (tag : LayoutTag) (msg : String)
    (herr : run d tag = DirResult.error msg) :
    (processDirs read run (pre ++ (d, tag) :: post)).encounters =
      (processDirs read run (pre ++ post)).encounters ∧
    (processDirs read run (pre ++ (d, tag) :: post)).successes =
      (processDirs read run (pre ++ post)).successes ∧
    (d ∉ post.map Prod.fst →
      alLookup (processDirs read run (pre ++ (d, tag) :: post)).failures d =
        some msg) ∧
    (∀ dirs : List (String × LayoutTag), dirs ≠ [] →
      parseWithStatus read run dirs = Except.ok (processDirs read run dirs) ∧
      ((processDirs read run dirs).failures = [] →
        parseStrict read run dirs =
          Except.ok (processDirs read run dirs).encounters) ∧
      ((processDirs read run dirs).failures ≠ [] →
        parseStrict read run dirs =
          Except.error (aggregateMessage (processDirs read run dirs).failures))) := by
  have hsplit : processDirs read run (pre ++ (d, tag) :: post) =
      post.foldl (processDir read run)
        (processDir read run (processDirs read run pre) (d, tag)) := by
    unfold processDirs
    rw [List.foldl_append, List.foldl_cons]
  have hsplit2 : processDirs read run (pre ++ post) =
      post.foldl (processDir read run) (processDirs read run pre) := by
    unfold processDirs
    rw [List.foldl_append]
  have hstep : processDir read run (processDirs read run pre) (d, tag) =
      { processDirs read run pre with
        failures := alUpdate (processDirs read run pre).failures d msg } := by
    unfold processDir
    rw [herr]
  have hagree : agreeExceptFailures
      (processDirs read run (pre ++ (d, tag) :: post))
      (processDirs read run (pre ++ post)) := by
    rw [hsplit, hsplit2, hstep]
    exact processDirs_foldl_agree read run post _ _ ⟨rfl, rfl, rfl, rfl⟩
  refine ⟨hagree.1, hagree.2.1, ?_, ?_⟩
  · intro hd
    rw [hsplit, processDirs_failures_lookup read run post _ d hd, hstep,
      alLookup_alUpdate, if_pos rfl]
  · intro dirs hdirs
    have hpw : parseWithStatus read run dirs =
        Except.ok (processDirs read run dirs) := by
      unfold parseWithStatus
      rw [if_neg hdirs]
    refine ⟨hpw, ?_, ?_⟩
    · intro hf
      unfold parseStrict
      rw [hpw]
      simp [hf]
    · intro hf
      unfold parseStrict
      rw [hpw]
      simp [hf]

/-- C5 (witness): a concrete two-directory run where the first directory
fails with message `"boom"`: the failure is recorded and the encounter map
equals that of the run without the failing directory. -/
theorem parse_status_error_isolation_witness :
    alLookup (processDirs (fun _ => none)
        (fun p _ => if p = "a" then DirResult.error "boom" else DirResult.ok [])
        ([] ++ ("a", LayoutTag.mi) :: [("b", LayoutTag.mi)])).failures "a" =
      some "boom" ∧
    (processDirs (fun _ => none)
        (fun p _ => if p = "a" then DirResult.error "boom" else DirResult.ok [])
        ([] ++ ("a", LayoutTag.mi) :: [("b", LayoutTag.mi)])).encounters =
      (processDirs (fun _ => none)
        (fun p _ => if p = "a" then DirResult.error "boom" else DirResult.ok [])
        ([] ++ [("b", LayoutTag.mi)])).encounters :=
  ⟨(parse_status_error_isolation (fun _ => none)
      (fun p _ => if p = "a" then DirResult.error "boom" else DirResult.ok [])
      [] [("b", LayoutTag.mi)] "a" LayoutTag.mi "boom" (by decide)).2.2.1
      (by decide),
   (parse_status_error_isolation (fun _ => none)
      (fun p _ => if p = "a" then DirResult.error "boom" else DirResult.ok [])
      [] [("b", LayoutTag.mi)] "a" LayoutTag.mi "boom" (by decide)).1⟩

end EDI
